import Mathlib

/-!
Shallow embedding of the rusty-roguelike simulation core
(src/main.rs and src/components.rs).

Conventions of the embedding:
* Rust `i32` values are modelled with `Int`; every quantity produced by this
  program stays far below the i32 range, so wrap-around never fires and plain
  integer arithmetic is faithful.  Rust integer division truncates toward
  zero, which is `Int.tdiv`.
* `Vec<T>` is modelled with `List T`.  Where the source indexes a vector
  unconditionally (and would panic out of bounds) the embedding totalises the
  access with `List.getD` and an explicit default; theorems carry the
  in-bounds hypotheses under which the source is panic-free, so the default
  is never reached there.
* The seeded random stream (`rand::StdRng`) is external.  It is modelled as
  an abstract stream of naturals; `gen_range lo hi` reduces the next raw
  value into `[lo, hi)` with an explicit `%`, which realises exactly the
  contract the source relies on (a sample uniform in `[lo, hi)`).  The
  `next_f32` roll in `[0,1)` used for the species choice is modelled as a
  scaled integer in `[0,1000)`; no claim depends on its distribution.
* Colors are presentation-only data carried on messages and objects; their
  RGB values are irrelevant to every claim and are fixed to nominal values.
-/

namespace RR

/-- Screen/panel layout constants from main.rs (only the ones the core
logic reads). -/
def SCREEN_WIDTH : Int := 80

def SCREEN_HEIGHT : Int := 43

def PANEL_HEIGHT : Int := 7

def MAP_WIDTH : Int := SCREEN_WIDTH

def MAP_HEIGHT : Int := SCREEN_HEIGHT - 5

def MSG_HEIGHT : Nat := (PANEL_HEIGHT - 1).toNat

def ROOM_MAX_SIZE : Int := 12

def ROOM_MIN_SIZE : Int := 5

def MAX_ROOMS : Nat := 10

def MAX_ROOM_MONSTERS : Int := 4

def MAX_ROOM_ITEMS : Int := 2

/-- PLAYER_IDX: the player is always the first object. -/
def PLAYER_IDX : Nat := 0

def DEFAULT_DEATH_CHAR : Char := 'x'

def HEAL_AMOUNT : Int := 8

/-- tcod Color; presentation-only. -/
structure Color where
  r : Nat
  g : Nat
  b : Nat
  deriving DecidableEq

def colors.WHITE : Color := ⟨255, 255, 255⟩

def colors.RED : Color := ⟨255, 0, 0⟩

def colors.GREEN : Color := ⟨0, 255, 0⟩

def colors.BLUE : Color := ⟨0, 0, 255⟩

def colors.DARKER_GREEN : Color := ⟨0, 127, 0⟩

def colors.VIOLET : Color := ⟨127, 0, 255⟩

def colors.LIGHT_VIOLET : Color := ⟨185, 115, 255⟩

/-- components.rs: CharacterAttributes. -/
structure CharacterAttributes where
  max_hp : Int
  hp : Int
  defense : Int
  power : Int
  deriving DecidableEq

/-- components.rs: Ai (marker component with no data). -/
structure Ai where
  deriving DecidableEq

/-- components.rs: Item. -/
inductive Item where
  | Heal
  deriving DecidableEq

/-- main.rs: Object. -/
structure Object where
  x : Int
  y : Int
  char : Char
  death_char : Char
  color : Color
  name : String
  blocks : Bool
  alive : Bool
  show_when_dead : Bool
  char_attributes : Option CharacterAttributes
  brain : Option Ai
  item : Option Item
  deriving DecidableEq

/-- Object::new — a freshly constructed object is not alive and has no
components attached. -/
def Object.new (x y : Int) (char death_char : Char) (name : String)
    (color : Color) (blocks show_dead : Bool) : Object :=
  { x := x, y := y, char := char, death_char := death_char, color := color,
    name := name, blocks := blocks, alive := false,
    show_when_dead := show_dead,
    char_attributes := none, brain := none, item := none }

/-- Stand-in value for totalised `Vec` indexing (the source would panic). -/
def defaultObject : Object :=
  Object.new 0 0 ' ' ' ' "" colors.WHITE false false

instance : Inhabited Object := ⟨defaultObject⟩

def Object.pos (o : Object) : Int × Int := (o.x, o.y)

def Object.set_pos (o : Object) (x y : Int) : Object :=
  { o with x := x, y := y }

/-- main.rs: Tile. -/
structure Tile where
  passable : Bool
  blocks_sight : Bool
  explored : Bool
  visible : Bool
  deriving DecidableEq

def Tile.empty : Tile :=
  { passable := true, blocks_sight := false, explored := false, visible := false }

def Tile.wall : Tile :=
  { passable := false, blocks_sight := true, explored := false, visible := false }

/-- Tile::make_empty mutates all four flags of an existing tile. -/
def Tile.make_empty (_t : Tile) : Tile :=
  { passable := true, blocks_sight := false, explored := false, visible := false }

abbrev Map : Type := List Tile

/-- main.rs: Rect. -/
structure Rect where
  x1 : Int
  x2 : Int
  y1 : Int
  y2 : Int
  deriving DecidableEq

def Rect.new (x y w h : Int) : Rect :=
  { x1 := x, y1 := y, x2 := x + w, y2 := y + h }

/-- Rect::center; Rust i32 division truncates toward zero (`Int.tdiv`). -/
def Rect.center (r : Rect) : Int × Int :=
  (Int.tdiv (r.x1 + r.x2) 2, Int.tdiv (r.y1 + r.y2) 2)

/-- Rect::intersects_with — inclusive on all four bounds. -/
def Rect.intersects_with (s other : Rect) : Bool :=
  decide (s.x1 ≤ other.x2) && decide (s.x2 ≥ other.x1) &&
    decide (s.y1 ≤ other.y2) && decide (s.y2 ≥ other.y1)

abbrev Messages : Type := List (String × Color)

/-- main.rs: GameState (EngineState is pure presentation and stays
external). -/
structure GameState where
  debug_mode : Bool
  debug_disable_fog : Bool
  messages : Messages
  game_running : Bool
  inventory : List Object
  map : Map

/-- main.rs: message — push a message, first dropping the oldest entry when
the log already holds MSG_HEIGHT entries. -/
def message (game_state : GameState) (msg : String) (color : Color) :
    GameState :=
  let msgs :=
    if game_state.messages.length = MSG_HEIGHT then
      game_state.messages.drop 1
    else
      game_state.messages
  { game_state with messages := msgs ++ [(msg, color)] }

/-- main.rs: on_object_death — AI entities become inert corpses, the player
only stops blocking. -/
def on_object_death (obj : Object) (game_state : GameState) :
    Object × GameState :=
  match obj.brain with
  | some _ =>
    let game_state := message game_state (obj.name ++ " died!") colors.RED
    ({ obj with name := obj.name ++ " [corpse]", blocks := false,
                brain := none },
     game_state)
  | none =>
    let game_state := message game_state (obj.name ++ " died!") colors.RED
    ({ obj with blocks := false }, game_state)

/-- main.rs: Object::take_damage. -/
def Object.take_damage (self : Object) (damage : Int)
    (game_state : GameState) : Object × GameState :=
  if self.alive ∧ damage > 0 then
    let self :=
      match self.char_attributes with
      | some char_attributes =>
        let hp2 := char_attributes.hp - min damage char_attributes.hp
        let self :=
          { self with char_attributes := some ({ char_attributes with hp := hp2 }) }
        if hp2 ≤ 0 then { self with alive := false } else self
      | none => self
    match self.char_attributes with
    | some _ =>
      if ¬ self.alive then on_object_death self game_state
      else (self, game_state)
    | none => (self, game_state)
  else
    (self, game_state)

/-- main.rs: Object::heal. -/
def Object.heal (self : Object) (amount : Int) : Object :=
  if self.alive ∧ amount > 0 then
    match self.char_attributes with
    | some char_attributes =>
      let ca :=
        { char_attributes with
            hp := min char_attributes.max_hp (char_attributes.hp + amount) }
      { self with char_attributes := some ca }
    | none => self
  else
    self

/-- main.rs: Object::attack — the attacker is not mutated; the updated
target and game state are returned. -/
def Object.attack (self : Object) (target : Object)
    (game_state : GameState) : Object × GameState :=
  let damage :=
    (match self.char_attributes with | some a => a.power | none => 0) -
      (match target.char_attributes with | some a => a.defense | none => 0)
  if damage > 0 then
    let game_state :=
      message game_state
        (self.name ++ " attacks " ++ target.name ++ " and deals " ++
          toString damage ++ " damage!")
        colors.WHITE
    target.take_damage damage game_state
  else
    (target,
     message game_state
       (self.name ++ " attacks " ++ target.name ++ ", but it has no effect!")
       colors.WHITE)

/-- The Int interval [lo, hi) as a list, mirroring a Rust `lo..hi` loop. -/
def intRange (lo hi : Int) : List Int :=
  (List.range (hi - lo).toNat).map (fun i : Nat => lo + (i : Int))

/-- main.rs: create_room — carve the strict interior of the rect. -/
def create_room (room : Rect) (map : Map) : Map :=
  (intRange (room.y1 + 1) room.y2).foldl
    (fun m y =>
      (intRange (room.x1 + 1) room.x2).foldl
        (fun m x => m.set (y * MAP_WIDTH + x).toNat Tile.empty) m)
    map

/-- main.rs: create_h_tunnel. -/
def create_h_tunnel (x1 x2 y : Int) (map : Map) : Map :=
  (intRange (min x1 x2) (max x1 x2 + 1)).foldl
    (fun m x =>
      m.set (y * MAP_WIDTH + x).toNat
        (Tile.make_empty (m.getD (y * MAP_WIDTH + x).toNat Tile.wall)))
    map

/-- main.rs: create_v_tunnel. -/
def create_v_tunnel (y1 y2 x : Int) (map : Map) : Map :=
  (intRange (min y1 y2) (max y1 y2 + 1)).foldl
    (fun m y =>
      m.set (y * MAP_WIDTH + x).toNat
        (Tile.make_empty (m.getD (y * MAP_WIDTH + x).toNat Tile.wall)))
    map

/-- main.rs: TileCollisionInfo. -/
structure TileCollisionInfo where
  collision : Bool
  obj_collision : Bool
  tile_collision : Bool
  collision_id : Option Nat
  deriving DecidableEq

/-- main.rs: check_tile_for_collision.  Terrain is consulted first; only on
passable terrain is the object list scanned (first match wins). -/
def check_tile_for_collision (x y : Int) (map : Map)
    (objects : List Object) : TileCollisionInfo :=
  let tile_passable := (map.getD (y * MAP_WIDTH + x).toNat Tile.wall).passable
  if tile_passable then
    let id := objects.findIdx? (fun object =>
      object.blocks && decide (object.pos = (x, y)))
    { collision := id.isSome, obj_collision := id.isSome,
      tile_collision := false, collision_id := id }
  else
    { collision := true, obj_collision := false,
      tile_collision := true, collision_id := none }

/-- main.rs: attempt_move — move iff the destination produced no
collision; returns the collision info together with the updated objects. -/
def attempt_move (id : Nat) (dx dy : Int) (map : Map)
    (objects : List Object) : TileCollisionInfo × List Object :=
  let o := objects.getD id defaultObject
  let new_x := o.x + dx
  let new_y := o.y + dy
  let coll_info := check_tile_for_collision new_x new_y map objects
  if ¬ coll_info.collision then
    (coll_info, objects.set id (o.set_pos new_x new_y))
  else
    (coll_info, objects)

/-- Vec::swap_remove — replace index `i` with the last element and drop the
last slot. -/
def swapRemove (l : List Object) (i : Nat) : List Object :=
  (l.set i (l.getLastD defaultObject)).dropLast

/-- main.rs: pick_up_item. -/
def pick_up_item (game_state : GameState) (object_id : Nat)
    (objects : List Object) : GameState × List Object :=
  if game_state.inventory.length ≥ 26 then
    (message game_state
      ("You can\x27t pick up the " ++
        (objects.getD object_id defaultObject).name ++
        ". You\x27re inventory is full!")
      colors.RED,
     objects)
  else
    let item := objects.getD object_id defaultObject
    let objects := swapRemove objects object_id
    let game_state :=
      message game_state ("You picked up a " ++ item.name ++ "!") colors.GREEN
    ({ game_state with inventory := game_state.inventory ++ [item] }, objects)

inductive ItemUseResult where
  | UsedUp
  | Cancelled
  deriving DecidableEq

/-- main.rs: cast_heal — cancels at full health, otherwise messages and
heals the player by HEAL_AMOUNT. -/
def cast_heal (game_state : GameState) (objects : List Object) :
    ItemUseResult × GameState × List Object :=
  match (objects.getD PLAYER_IDX defaultObject).char_attributes with
  | some char_attributes =>
    if char_attributes.hp = char_attributes.max_hp then
      (ItemUseResult.Cancelled,
       message game_state "You\x27re already at full health." colors.RED,
       objects)
    else
      let game_state :=
        message game_state
          "Your wounds begin to magically heal. Thanks potion!"
          colors.LIGHT_VIOLET
      let objects :=
        objects.set PLAYER_IDX
          ((objects.getD PLAYER_IDX defaultObject).heal HEAL_AMOUNT)
      (ItemUseResult.UsedUp, game_state, objects)
  | none => (ItemUseResult.Cancelled, game_state, objects)

/-- main.rs: use_item. -/
def use_item (inventory_id : Nat) (game_state : GameState)
    (objects : List Object) : GameState × List Object :=
  match (game_state.inventory.getD inventory_id defaultObject).item with
  | some Item.Heal =>
    match cast_heal game_state objects with
    | (ItemUseResult.UsedUp, game_state, objects) =>
      ({ game_state with
           inventory := game_state.inventory.eraseIdx inventory_id },
       objects)
    | (ItemUseResult.Cancelled, game_state, objects) =>
      (message game_state "Cancelled" colors.WHITE, objects)
  | none =>
    (message game_state
      ("The " ++ (game_state.inventory.getD inventory_id defaultObject).name ++
        " cannot be used.")
      colors.WHITE,
     objects)

/-- main.rs: npc_name. -/
def npc_name (label : String) (objects : List Object) : String :=
  label ++ "_" ++ toString (objects.length + 1)

/-- Abstract seeded random stream: a stream of raw naturals plus a cursor.
The stream itself is the external `rand::StdRng` collaborator. -/
structure RNG where
  seq : Nat → Nat
  idx : Nat

def RNG.next (r : RNG) : Nat × RNG :=
  (r.seq r.idx, { r with idx := r.idx + 1 })

/-- rand's gen_range(lo, hi) contract: a sample in [lo, hi). -/
def RNG.gen_range (r : RNG) (lo hi : Int) : Int × RNG :=
  let n := r.next
  (lo + (n.1 : Int) % (hi - lo), n.2)

/-- rand's gen::<bool>() coin flip. -/
def RNG.gen_bool (r : RNG) : Bool × RNG :=
  let n := r.next
  (n.1 % 2 = 0, n.2)

/-- rand's next_f32() roll in [0,1), modelled as a scaled integer in
[0,1000): the source only compares the roll against the fixed thresholds
0.4 and 0.7, which become 400 and 700. -/
def RNG.next_roll (r : RNG) : Nat × RNG :=
  let n := r.next
  (n.1 % 1000, n.2)

/-- The witch stat block from place_objects. -/
def mk_witch (x y : Int) (name : String) : Object :=
  let witch := Object.new x y 'W' DEFAULT_DEATH_CHAR name colors.GREEN true true
  { witch with
      char_attributes := some ({ max_hp := 13, hp := 10, defense := 4, power := 3 }),
      brain := some ({}) }

/-- The lizard stat block from place_objects. -/
def mk_lizard (x y : Int) (name : String) : Object :=
  let lizard := Object.new x y 'L' DEFAULT_DEATH_CHAR name colors.DARKER_GREEN true true
  { lizard with
      char_attributes := some ({ max_hp := 7, hp := 5, defense := 2, power := 1 }),
      brain := some ({}) }

/-- The wizard stat block from place_objects. -/
def mk_wizard (x y : Int) (name : String) : Object :=
  let wizard := Object.new x y '@' DEFAULT_DEATH_CHAR name colors.RED true true
  { wizard with
      char_attributes := some ({ max_hp := 16, hp := 12, defense := 3, power := 4 }),
      brain := some ({}) }

/-- One monster-placement attempt of place_objects: sample an interior
cell, skip on collision (no retry), otherwise roll the species. -/
def place_one_monster (room : Rect) (map : Map)
    (s : RNG × List Object) : RNG × List Object :=
  let gx := s.1.gen_range (room.x1 + 1) room.x2
  let x := gx.1
  let gy := gx.2.gen_range (room.y1 + 1) room.y2
  let y := gy.1
  let rng := gy.2
  let coll_info := check_tile_for_collision x y map s.2
  if ¬ coll_info.collision then
    let roll := rng.next_roll
    let monster :=
      if roll.1 < 400 then
        mk_witch x y (npc_name "Witch" s.2)
      else if roll.1 < 700 then
        mk_lizard x y (npc_name "Lizard" s.2)
      else
        mk_wizard x y (npc_name "Wizard" s.2)
    let monster := { monster with alive := true }
    (roll.2, s.2 ++ [monster])
  else
    (rng, s.2)

/-- One item-placement attempt of place_objects. -/
def place_one_item (room : Rect) (map : Map)
    (s : RNG × List Object) : RNG × List Object :=
  let gx := s.1.gen_range (room.x1 + 1) room.x2
  let x := gx.1
  let gy := gx.2.gen_range (room.y1 + 1) room.y2
  let y := gy.1
  let rng := gy.2
  let coll_info := check_tile_for_collision x y map s.2
  if ¬ coll_info.collision then
    let obj := Object.new x y '!' ' ' "Healing Potion" colors.VIOLET false false
    let obj := { obj with alive := true, item := some Item.Heal }
    (rng, s.2 ++ [obj])
  else
    (rng, s.2)

/-- main.rs: place_objects. -/
def place_objects (rng : RNG) (room : Rect) (map : Map)
    (objects : List Object) : RNG × List Object :=
  let gm := rng.gen_range 0 (MAX_ROOM_MONSTERS + 1)
  let s :=
    (List.range gm.1.toNat).foldl (fun s _ => place_one_monster room map s)
      (gm.2, objects)
  let gi := s.1.gen_range 0 (MAX_ROOM_ITEMS + 1)
  (List.range gi.1.toNat).foldl (fun s _ => place_one_item room map s)
    (gi.2, s.2)

/-- The running state of make_map's generation loop (the rooms list is the
loop-local `rooms` vector, exposed so the generator's invariants can be
stated). -/
structure LevelGen where
  rng : RNG
  objects : List Object
  map : Map
  rooms : List Rect

/-- One iteration of make_map's room loop. -/
def make_map_step (s : LevelGen) : LevelGen :=
  let gw := s.rng.gen_range ROOM_MIN_SIZE (ROOM_MAX_SIZE + 1)
  let w := gw.1
  let gh := gw.2.gen_range ROOM_MIN_SIZE (ROOM_MAX_SIZE + 1)
  let h := gh.1
  let gx := gh.2.gen_range 0 (MAP_WIDTH - w)
  let x := gx.1
  let gy := gx.2.gen_range 0 (MAP_HEIGHT - h)
  let y := gy.1
  let rng := gy.2
  let room := Rect.new x y w h
  let can_place := ¬ (s.rooms.any (fun other_room => room.intersects_with other_room))
  if can_place then
    let map := create_room room s.map
    let c := room.center
    let step1 : RNG × List Object × Map :=
      if s.rooms.isEmpty then
        (rng,
         s.objects.set PLAYER_IDX
           ((s.objects.getD PLAYER_IDX defaultObject).set_pos c.1 c.2),
         map)
      else
        let prev := (s.rooms.getLastD (Rect.new 0 0 0 0)).center
        let gc := rng.gen_bool
        if gc.1 then
          (gc.2, s.objects,
           create_v_tunnel prev.2 c.2 c.1 (create_h_tunnel prev.1 c.1 prev.2 map))
        else
          (gc.2, s.objects,
           create_h_tunnel prev.1 c.1 c.2 (create_v_tunnel prev.2 c.2 prev.1 map))
    let placed := place_objects step1.1 room step1.2.2 step1.2.1
    { rng := placed.1, objects := placed.2, map := step1.2.2,
      rooms := s.rooms ++ [room] }
  else
    { s with rng := rng }

/-- main.rs: make_map, with the whole loop state returned. -/
def make_map_full (rng : RNG) (objects : List Object) : LevelGen :=
  (List.range MAX_ROOMS).foldl (fun s _ => make_map_step s)
    { rng := rng, objects := objects,
      map := List.replicate (MAP_WIDTH * MAP_HEIGHT).toNat Tile.wall,
      rooms := [] }

/-- main.rs: make_map — the map is returned, the objects vector is mutated
in place (here: returned alongside). -/
def make_map (rng : RNG) (objects : List Object) : Map × List Object :=
  ((make_map_full rng objects).map, (make_map_full rng objects).objects)

/-- The body of update_map's per-tile loop: set `visible` from the FOV
oracle and, if the tile is visible but not yet explored, mark it
explored. -/
def fold_fov_tile (fov : Int → Int → Bool) (m : Map) (x y : Int) : Map :=
  let idx := (y * MAP_WIDTH + x).toNat
  let tile := m.getD idx Tile.wall
  let tile := { tile with visible := fov x y }
  let tile :=
    if tile.visible && ! tile.explored then { tile with explored := true }
    else tile
  m.set idx tile

/-- update_map's double loop over the whole grid. -/
def recompute_fov (fov : Int → Int → Bool) (map : Map) : Map :=
  (intRange 0 MAP_HEIGHT).foldl
    (fun m y =>
      (intRange 0 MAP_WIDTH).foldl (fun m x => fold_fov_tile fov m x y) m)
    map

/-- main.rs: update_map — recompute per-tile visibility from the FOV
oracle, folding fresh visibility into the monotonic explored flag; only
runs when the player moved. -/
def update_map (game_state : GameState) (fov : Int → Int → Bool)
    (player_moved : Bool) : GameState :=
  if player_moved then
    { game_state with map := recompute_fov fov game_state.map }
  else
    game_state

/-- The net effect of one per-tile write of update_map on a tile: visible
is overwritten by the oracle answer, explored keeps its old value or
becomes true with fresh visibility. -/
def tileAfterFov (fov : Int → Int → Bool) (t0 : Tile) (x y : Int) : Tile :=
  { t0 with visible := fov x y, explored := t0.explored || fov x y }

/-- The per-index relation between the map before and after (part of) a
visibility recompute: every cell is either untouched or carries the
`tileAfterFov` of its old value at its own coordinates. -/
def fovTileRel (fov : Int → Int → Bool) (m0 m : Map) : Prop :=
  ∀ j : Nat,
    m.getD j Tile.wall = m0.getD j Tile.wall ∨
    ∃ x y : Int, 0 ≤ x ∧ x < MAP_WIDTH ∧ 0 ≤ y ∧ y < MAP_HEIGHT ∧
      j = (y * MAP_WIDTH + x).toNat ∧
      m.getD j Tile.wall = tileAfterFov fov (m0.getD j Tile.wall) x y

/-- A room rect lying inside the map with at least the minimum sampled
size on both axes — exactly what make_map's sampling guarantees. -/
def RoomInBounds (r : Rect) : Prop :=
  0 ≤ r.x1 ∧ r.x1 + 5 ≤ r.x2 ∧ r.x2 ≤ MAP_WIDTH - 1 ∧
  0 ≤ r.y1 ∧ r.y1 + 5 ≤ r.y2 ∧ r.y2 ≤ MAP_HEIGHT - 1

/-- Every tile on the map border is the wall tile. -/
def borderWalls (m : Map) : Prop :=
  ∀ x y : Int, 0 ≤ x → x < MAP_WIDTH → 0 ≤ y → y < MAP_HEIGHT →
    (x = 0 ∨ x = MAP_WIDTH - 1 ∨ y = 0 ∨ y = MAP_HEIGHT - 1) →
    m.getD (y * MAP_WIDTH + x).toNat Tile.wall = Tile.wall

/-- The generator's map invariant: full grid size and walled border. -/
def MapInv (m : Map) : Prop :=
  m.length = (MAP_WIDTH * MAP_HEIGHT).toNat ∧ borderWalls m

/-- The generator's loop invariant: the map invariant plus in-bounds
accepted rooms. -/
def GenInv (s : LevelGen) : Prop :=
  MapInv s.map ∧ ∀ r ∈ s.rooms, RoomInBounds r

inductive PlayerAction where
  | TookTurn
  | DidntTakeTurn
  | Exit
  deriving DecidableEq

/-- The pick-up-item arm of handle_input (the `g` key, player alive): find
an item-carrying object on the player's tile, transfer it if possible, and
never consume a turn. -/
def handle_pick_up_intent (game_state : GameState)
    (objects : List Object) : PlayerAction × GameState × List Object :=
  let item_id := objects.findIdx? (fun obj =>
    obj.item.isSome &&
      decide (obj.pos = (objects.getD PLAYER_IDX defaultObject).pos))
  match item_id with
  | some item_id =>
    let r := pick_up_item game_state item_id objects
    (PlayerAction.DidntTakeTurn, r.1, r.2)
  | none => (PlayerAction.DidntTakeTurn, game_state, objects)

/-- The player object built in main(): alive, 30/30 hp, defense 3,
power 7. -/
def initial_player : Object :=
  let player := Object.new 0 0 '@' 'X' "Player Bob" colors.WHITE true true
  { player with
      alive := true,
      char_attributes := some ({ max_hp := 30, hp := 30, defense := 3, power := 7 }) }

/-- The hp invariant on an optional attribute block: when attributes are
present, 0 ≤ hp ≤ max_hp. -/
def attrsOk (a : Option CharacterAttributes) : Bool :=
  match a with
  | some ca => decide (0 ≤ ca.hp) && decide (ca.hp ≤ ca.max_hp)
  | none => true

/-! ## Concrete fixtures used to instantiate the theorems -/

/-- An empty game session. -/
def gsEmpty : GameState := ⟨false, false, [], true, [], []⟩

/-- Scenario B defender: hp 10/13, defense 3. -/
def scenB_defender : Object :=
  { defaultObject with
      alive := true,
      char_attributes := some ({ max_hp := 13, hp := 10, defense := 3, power := 2 }) }

/-- A dead object. -/
def deadObj : Object := { defaultObject with alive := false }

/-- Scenario D subject: a blocking AI entity. -/
def scenD_lizard : Object :=
  { defaultObject with
      name := "Lizard_2",
      blocks := true,
      brain := some ({}) }

/-- A log already holding MSG_HEIGHT = 6 entries. -/
def msg6 : Messages :=
  [("m1", colors.WHITE), ("m2", colors.WHITE), ("m3", colors.WHITE),
   ("m4", colors.WHITE), ("m5", colors.WHITE), ("m6", colors.WHITE)]

/-- A session whose message log is full. -/
def gsFullLog : GameState := ⟨false, false, msg6, true, [], []⟩

/-- A healing-potion entity as seeded by place_objects. -/
def potionObj : Object :=
  { (Object.new 0 0 '!' ' ' "Healing Potion" colors.VIOLET false false) with
      alive := true,
      item := some Item.Heal }

/-- A dead player at 5/30 hp. -/
def c5DeadPlayer : Object :=
  { defaultObject with
      name := "Player Bob",
      blocks := true,
      alive := false,
      char_attributes := some ({ max_hp := 30, hp := 5, defense := 3, power := 7 }) }

/-- An alive player at 25/30 hp. -/
def c5AlivePlayer : Object :=
  { defaultObject with
      name := "Player Bob",
      blocks := true,
      alive := true,
      char_attributes := some ({ max_hp := 30, hp := 25, defense := 3, power := 7 }) }

/-- A session holding exactly one potion in the inventory. -/
def c5GS : GameState := ⟨false, false, [], true, [potionObj], []⟩

/-- A session whose inventory is at the 26-item capacity. -/
def gsFullInv : GameState :=
  ⟨false, false, [], true, List.replicate 26 potionObj, []⟩

/-- A small walled map with the interior of a rect carved out. -/
def c2Map : Map :=
  create_room (Rect.new 0 0 4 4) (List.replicate 200 Tile.wall)

/-- A blocking entity standing at (1,1). -/
def c2Player : Object :=
  { defaultObject with x := 1, y := 1, blocks := true, alive := true }

/-- A session whose map holds a single already-explored floor tile. -/
def c8GS : GameState :=
  ⟨false, false, [], true, [], [{ Tile.empty with explored := true }]⟩

/-! ## Generic helper lemmas -/

/-- A fold preserves any invariant preserved by each step. -/
theorem foldl_preserves {α : Type _} {β : Type _} (P : α → Prop)
    (f : α → β → α) :
    ∀ (l : List β) (a : α), P a → (∀ a b, b ∈ l → P a → P (f a b)) →
      P (l.foldl f a) := by
  intro l
  induction l with
  | nil => intro a ha _; exact ha
  | cons b bs ih =>
    intro a ha hf
    exact ih (f a b) (hf a b (List.mem_cons_self b bs) ha)
      (fun a c hc => hf a c (List.mem_cons_of_mem b hc))

theorem getD_set_ne {α : Type _} (l : List α) (i j : Nat) (a d : α)
    (h : i ≠ j) : (l.set i a).getD j d = l.getD j d := by
  simp [List.getD_eq_getElem?_getD, List.getElem?_set_ne h]

theorem getD_set_self {α : Type _} (l : List α) (i : Nat) (a d : α)
    (h : i < l.length) : (l.set i a).getD i d = a := by
  simp [List.getD_eq_getElem?_getD, List.getElem?_set_self h]

theorem mem_intRange {lo hi x : Int} (h : x ∈ intRange lo hi) :
    lo ≤ x ∧ x < hi := by
  unfold intRange at h
  rcases List.mem_map.mp h with ⟨i, hi, rfl⟩
  rw [List.mem_range] at hi
  omega

/-! ## C1: damage resolution -/

/-- Death handling never touches the combat attributes. -/
theorem on_object_death_char_attributes (o : Object) (gs : GameState) :
    (on_object_death o gs).1.char_attributes = o.char_attributes := by
  unfold on_object_death
  cases o.brain <;> simp

/-- Death handling never touches the alive flag. -/
theorem on_object_death_alive (o : Object) (gs : GameState) :
    (on_object_death o gs).1.alive = o.alive := by
  unfold on_object_death
  cases o.brain <;> simp

/-- Characterization of take_damage on an alive entity with attributes and
positive damage: hp drops by `min d hp`; death handling runs exactly when
the new hp is ≤ 0 (and then `alive` is cleared first). -/
theorem take_damage_eq (t : Object) (ta : CharacterAttributes) (d : Int)
    (gs : GameState) (ht : t.alive = true) (hta : t.char_attributes = some ta)
    (hd : 0 < d) :
    t.take_damage d gs =
      if ta.hp - min d ta.hp ≤ 0 then
        on_object_death
          ({ t with
               alive := false,
               char_attributes := some ({ ta with hp := ta.hp - min d ta.hp }) })
          gs
      else
        ({ t with
             char_attributes := some ({ ta with hp := ta.hp - min d ta.hp }) },
         gs) := by
  simp only [Object.take_damage, hta, ht, hd]
  by_cases hle : ta.hp - min d ta.hp ≤ 0
  · simp [hle]
  · simp [hle, ht]

/-- Claim C1: in `attack`, damage is computed as attacker power minus
defender defense, and a non-positive damage only records a no-effect
message without mutating the target; `take_damage` on an alive entity with
attributes and positive damage lowers hp by exactly `min damage hp` (never
below zero), sets `alive := false` and runs death handling exactly once
when hp thereby reaches 0, and is a strict no-op on an already-dead entity
(or non-positive damage). -/
theorem c1_damage_resolution :
    (∀ (a t : Object) (pa ta : CharacterAttributes) (gs : GameState),
       a.char_attributes = some pa → t.char_attributes = some ta →
       a.attack t gs =
         (if pa.power - ta.defense > 0 then
            t.take_damage (pa.power - ta.defense)
              (message gs
                (a.name ++ " attacks " ++ t.name ++ " and deals " ++
                  toString (pa.power - ta.defense) ++ " damage!")
                colors.WHITE)
          else
            (t,
             message gs
               (a.name ++ " attacks " ++ t.name ++ ", but it has no effect!")
               colors.WHITE)))
  ∧ (∀ (t : Object) (ta : CharacterAttributes) (d : Int) (gs : GameState),
       t.alive = true → t.char_attributes = some ta → 0 < d →
       (t.take_damage d gs).1.char_attributes =
           some ({ ta with hp := ta.hp - min d ta.hp })
       ∧ 0 ≤ ta.hp - min d ta.hp
       ∧ (0 < ta.hp - min d ta.hp →
            t.take_damage d gs =
              ({ t with
                   char_attributes := some ({ ta with hp := ta.hp - min d ta.hp }) },
               gs))
       ∧ (ta.hp - min d ta.hp ≤ 0 →
            (t.take_damage d gs).1.alive = false ∧
            t.take_damage d gs =
              on_object_death
                ({ t with
                     alive := false,
                     char_attributes := some ({ ta with hp := ta.hp - min d ta.hp }) })
                gs))
  ∧ (∀ (t : Object) (d : Int) (gs : GameState),
       t.alive = false → t.take_damage d gs = (t, gs))
  ∧ (∀ (t : Object) (d : Int) (gs : GameState),
       d ≤ 0 → t.take_damage d gs = (t, gs)) := by
  refine ⟨?_, ?_, ?_, ?_⟩
  · intro a t pa ta gs ha hta
    simp only [Object.attack, ha, hta]
  · intro t ta d gs ht hta hd
    have hmin : min d ta.hp ≤ ta.hp := min_le_right _ _
    rw [take_damage_eq t ta d gs ht hta hd]
    refine ⟨?_, by omega, ?_, ?_⟩
    · by_cases hle : ta.hp - min d ta.hp ≤ 0
      · rw [if_pos hle, on_object_death_char_attributes]
      · rw [if_neg hle]
    · intro hpos
      rw [if_neg (by omega)]
    · intro hle
      rw [if_pos hle]
      exact ⟨by rw [on_object_death_alive], rfl⟩
  · intro t d gs ht
    simp [Object.take_damage, ht]
  · intro t d gs hd
    simp only [Object.take_damage]
    rw [if_neg (by rintro ⟨_, h⟩; omega)]

/-- Scenario B instance of C1: 4 damage against hp 10 leaves hp 6; a dead
entity ignores damage. -/
theorem c1_damage_resolution_witness :
    ((scenB_defender.take_damage 4 gsEmpty).1.char_attributes =
      some ({ max_hp := 13, hp := 6, defense := 3, power := 2 }))
  ∧ (deadObj.take_damage 4 gsEmpty = (deadObj, gsEmpty)) := by
  constructor
  · exact (c1_damage_resolution.2.1 scenB_defender
      ({ max_hp := 13, hp := 10, defense := 3, power := 2 }) 4
      gsEmpty rfl rfl (by decide)).1
  · exact c1_damage_resolution.2.2.1 deadObj 4 gsEmpty rfl

/-! ## C4: death handling -/

/-- Claim C4: on_object_death removes the Ai capability, appends the corpse
marker to the name and clears blocks for AI entities; for the player (no
Ai) it only clears blocks, leaving name and capabilities untouched.  In
both cases a death message is logged. -/
theorem c4_on_object_death :
    ∀ (o : Object) (gs : GameState),
      (∀ b : Ai, o.brain = some b →
         on_object_death o gs =
           ({ o with name := o.name ++ " [corpse]", blocks := false,
                     brain := none },
            message gs (o.name ++ " died!") colors.RED))
    ∧ (o.brain = none →
         on_object_death o gs =
           ({ o with blocks := false },
            message gs (o.name ++ " died!") colors.RED)) := by
  intro o gs
  constructor
  · intro b hb
    simp only [on_object_death, hb]
  · intro hb
    simp only [on_object_death, hb]

/-- Scenario D instance of C4: a concrete AI entity dies — capability
removed, corpse marker appended, blocks cleared. -/
theorem c4_on_object_death_witness :
    on_object_death scenD_lizard gsEmpty =
      ({ scenD_lizard with
           name := "Lizard_2 [corpse]", blocks := false, brain := none },
       message gsEmpty "Lizard_2 died!" colors.RED) :=
  (c4_on_object_death scenD_lizard gsEmpty).1 {} rfl

/-! ## Message-log helper lemmas -/

/-- The log update performed by `message`, as an equation. -/
theorem message_messages (gs : GameState) (m : String) (c : Color) :
    (message gs m c).messages =
      (if gs.messages.length = MSG_HEIGHT then gs.messages.drop 1
       else gs.messages) ++ [(m, c)] := rfl

theorem message_getLast (gs : GameState) (m : String) (c : Color) :
    (message gs m c).messages.getLast? = some (m, c) := by
  rw [message_messages]
  exact List.getLast?_concat _

theorem message_inventory (gs : GameState) (m : String) (c : Color) :
    (message gs m c).inventory = gs.inventory := rfl

/-- heal on an alive entity with attributes: hp is raised by the amount,
capped at max_hp. -/
theorem heal_some (o : Object) (ca : CharacterAttributes) (amt : Int)
    (hca : o.char_attributes = some ca) (ha : o.alive = true) (hamt : 0 < amt) :
    o.heal amt =
      { o with
          char_attributes := some ({ ca with hp := min ca.max_hp (ca.hp + amt) }) } := by
  unfold Object.heal
  rw [if_pos (And.intro ha hamt)]
  simp only [hca]

/-- heal is a no-op on a dead entity. -/
theorem heal_not_alive (o : Object) (amt : Int) (ha : o.alive = false) :
    o.heal amt = o := by
  simp [Object.heal, ha]

/-- Branch equation for cast_heal when the player has attributes. -/
theorem cast_heal_eq (gs : GameState) (objects : List Object)
    (ca : CharacterAttributes)
    (h : (objects.getD PLAYER_IDX defaultObject).char_attributes = some ca) :
    cast_heal gs objects =
      if ca.hp = ca.max_hp then
        (ItemUseResult.Cancelled,
         message gs "You\x27re already at full health." colors.RED,
         objects)
      else
        (ItemUseResult.UsedUp,
         message gs "Your wounds begin to magically heal. Thanks potion!"
           colors.LIGHT_VIOLET,
         objects.set PLAYER_IDX
           ((objects.getD PLAYER_IDX defaultObject).heal HEAL_AMOUNT)) := by
  simp only [cast_heal, h]

/-! ## C2: movement resolution -/

/-- Claim C2: the destination of attempt_move is classified in two stages —
impassable terrain blocks unconditionally with no entity scan recorded,
and only on passable terrain is the object list scanned linearly for the
first blocking occupant — and the mover's position is updated exactly when
no collision of either kind was found. -/
theorem c2_attempt_move :
    ∀ (id : Nat) (dx dy : Int) (map : Map) (objects : List Object)
      (nx ny : Int),
      id < objects.length →
      nx = (objects.getD id defaultObject).x + dx →
      ny = (objects.getD id defaultObject).y + dy →
      ((map.getD (ny * MAP_WIDTH + nx).toNat Tile.wall).passable = false →
         check_tile_for_collision nx ny map objects =
           { collision := true, obj_collision := false,
             tile_collision := true, collision_id := none })
    ∧ ((map.getD (ny * MAP_WIDTH + nx).toNat Tile.wall).passable = true →
         check_tile_for_collision nx ny map objects =
           { collision := (objects.findIdx? (fun object =>
                 object.blocks && decide (object.pos = (nx, ny)))).isSome,
             obj_collision := (objects.findIdx? (fun object =>
                 object.blocks && decide (object.pos = (nx, ny)))).isSome,
             tile_collision := false,
             collision_id := objects.findIdx? (fun object =>
                 object.blocks && decide (object.pos = (nx, ny))) })
    ∧ (attempt_move id dx dy map objects =
         (check_tile_for_collision nx ny map objects,
          if (check_tile_for_collision nx ny map objects).collision then
            objects
          else
            objects.set id ((objects.getD id defaultObject).set_pos nx ny))) := by
  intro id dx dy map objects nx ny _hid hnx hny
  refine ⟨?_, ?_, ?_⟩
  · intro hpass
    simp only [check_tile_for_collision, hpass]
    rfl
  · intro hpass
    simp only [check_tile_for_collision, hpass]
    rfl
  · subst hnx hny
    unfold attempt_move
    split
    · next h =>
      simp only [List.getD_eq_getElem?_getD] at h
      simp [h]
    · next h =>
      simp only [List.getD_eq_getElem?_getD] at h
      simp [h]

/-- Witness for C2: on a concrete carved map the blocking entity at (1,1)
steps into the free interior cell (2,1); an impassable destination is
classified with no entity scan. -/
theorem c2_attempt_move_witness :
    (attempt_move 0 1 0 c2Map [c2Player] =
      (check_tile_for_collision 2 1 c2Map [c2Player],
       if (check_tile_for_collision 2 1 c2Map [c2Player]).collision then
         [c2Player]
       else
         [c2Player].set 0 (c2Player.set_pos 2 1)))
  ∧ (check_tile_for_collision 2 1 ([] : Map) [c2Player] =
      { collision := true, obj_collision := false,
        tile_collision := true, collision_id := none }) := by
  constructor
  · exact (c2_attempt_move 0 1 0 c2Map [c2Player] 2 1 (by decide) (by decide)
      (by decide)).2.2
  · exact (c2_attempt_move 0 1 0 ([] : Map) [c2Player] 2 1 (by decide)
      (by decide) (by decide)).1 (by decide)

/-! ## C5: item use -/

/-- Claim C5, counterexample to the claim as stated: a Heal potion used
while the player is dead at 5/30 hp is consumed (inventory emptied) but
the player's hp does not increase to `min 30 (5 + HEAL_AMOUNT)`. -/
theorem c5_counterexample :
    ((use_item 0 c5GS [c5DeadPlayer]).2.getD 0 defaultObject).char_attributes =
        some ({ max_hp := 30, hp := 5, defense := 3, power := 7 })
  ∧ (use_item 0 c5GS [c5DeadPlayer]).1.inventory = []
  ∧ (5 : Int) ≠ min 30 (5 + HEAL_AMOUNT) := by
  refine ⟨rfl, rfl, by decide⟩

/-- Claim C5 (amended): an inventory entry without an ItemEffect only logs
"cannot be used"; a Heal item at full hp cancels and stays in the
inventory; otherwise, the item is removed and — when the player is alive —
hp rises by HEAL_AMOUNT capped at max_hp, while a dead player's hp is
unchanged (heal is a no-op on the dead, yet the item is still consumed). -/
theorem c5_use_item :
    ∀ (i : Nat) (gs : GameState) (objects : List Object)
      (ca : CharacterAttributes),
      (objects.getD PLAYER_IDX defaultObject).char_attributes = some ca →
      ((gs.inventory.getD i defaultObject).item = none →
         use_item i gs objects =
           (message gs
             ("The " ++ (gs.inventory.getD i defaultObject).name ++
               " cannot be used.")
             colors.WHITE,
            objects))
    ∧ ((gs.inventory.getD i defaultObject).item = some Item.Heal →
         ca.hp = ca.max_hp →
         use_item i gs objects =
           (message (message gs "You\x27re already at full health." colors.RED)
             "Cancelled" colors.WHITE,
            objects)
         ∧ (use_item i gs objects).1.inventory = gs.inventory)
    ∧ ((gs.inventory.getD i defaultObject).item = some Item.Heal →
         ca.hp ≠ ca.max_hp →
         (use_item i gs objects).1.inventory = gs.inventory.eraseIdx i
         ∧ (use_item i gs objects).2 =
             objects.set PLAYER_IDX
               ((objects.getD PLAYER_IDX defaultObject).heal HEAL_AMOUNT)
         ∧ ((objects.getD PLAYER_IDX defaultObject).alive = true →
              ((use_item i gs objects).2.getD PLAYER_IDX
                  defaultObject).char_attributes =
                some ({ ca with hp := min ca.max_hp (ca.hp + HEAL_AMOUNT) }))
         ∧ ((objects.getD PLAYER_IDX defaultObject).alive = false →
              ((use_item i gs objects).2.getD PLAYER_IDX
                  defaultObject).char_attributes = some ca)) := by
  intro i gs objects ca hca
  have hlen : PLAYER_IDX < objects.length := by
    rcases objects with _ | ⟨o, os⟩
    · simp [List.getD, defaultObject, Object.new] at hca
    · simp [PLAYER_IDX]
  refine ⟨?_, ?_, ?_⟩
  · intro hitem
    simp only [use_item, hitem]
  · intro hitem hfull
    have h1 : use_item i gs objects =
        (message (message gs "You\x27re already at full health." colors.RED)
          "Cancelled" colors.WHITE, objects) := by
      simp only [use_item, hitem, cast_heal_eq gs objects ca hca, if_pos hfull]
    refine ⟨h1, ?_⟩
    rw [h1]
    rfl
  · intro hitem hne
    have h1 : use_item i gs objects =
        ({ message gs "Your wounds begin to magically heal. Thanks potion!"
             colors.LIGHT_VIOLET with
             inventory := gs.inventory.eraseIdx i },
         objects.set PLAYER_IDX
           ((objects.getD PLAYER_IDX defaultObject).heal HEAL_AMOUNT)) := by
      simp only [use_item, hitem, cast_heal_eq gs objects ca hca, if_neg hne,
        message_inventory]
    rw [h1]
    refine ⟨rfl, rfl, ?_, ?_⟩
    · intro halive
      rw [getD_set_self _ _ _ _ hlen,
        heal_some _ ca _ hca halive (by norm_num [HEAL_AMOUNT])]
    · intro hdead
      rw [getD_set_self _ _ _ _ hlen, heal_not_alive _ _ hdead]
      exact hca

/-- Scenario E instance of C5: at 25/30 hp the potion heals to 30 and is
consumed; at full hp the use is cancelled and the potion stays. -/
theorem c5_use_item_witness :
    ((use_item 0 c5GS [c5AlivePlayer]).2.getD PLAYER_IDX
        defaultObject).char_attributes =
      some ({ max_hp := 30, hp := 30, defense := 3, power := 7 })
  ∧ (use_item 0 c5GS [c5AlivePlayer]).1.inventory = [] := by
  constructor
  · have h := ((c5_use_item 0 c5GS [c5AlivePlayer]
      ({ max_hp := 30, hp := 25, defense := 3, power := 7 }) rfl).2.2
      rfl (by decide)).2.2.1 rfl
    exact h
  · have h := ((c5_use_item 0 c5GS [c5AlivePlayer]
      ({ max_hp := 30, hp := 25, defense := 3, power := 7 }) rfl).2.2
      rfl (by decide)).1
    exact h

/-! ## C7: item pickup -/

/-- Claim C7: with 26 or more inventory entries pick_up_item only logs a
capacity message (inventory and object collection untouched); with room,
the item is swap-removed from the object collection and appended to the
inventory; and the pickup intent always resolves to DidntTakeTurn. -/
theorem c7_pick_up_item :
    (∀ (gs : GameState) (id : Nat) (objects : List Object),
       26 ≤ gs.inventory.length →
       pick_up_item gs id objects =
         (message gs
           ("You can\x27t pick up the " ++
             (objects.getD id defaultObject).name ++
             ". You\x27re inventory is full!")
           colors.RED,
          objects)
       ∧ (pick_up_item gs id objects).1.inventory = gs.inventory)
  ∧ (∀ (gs : GameState) (id : Nat) (objects : List Object),
       gs.inventory.length < 26 →
       (pick_up_item gs id objects).1.inventory =
           gs.inventory ++ [objects.getD id defaultObject]
       ∧ (pick_up_item gs id objects).2 =
           (objects.set id (objects.getLastD defaultObject)).dropLast)
  ∧ (∀ (gs : GameState) (objects : List Object),
       (handle_pick_up_intent gs objects).1 = PlayerAction.DidntTakeTurn) := by
  refine ⟨?_, ?_, ?_⟩
  · intro gs id objects hfull
    have h1 : pick_up_item gs id objects =
        (message gs
          ("You can\x27t pick up the " ++
            (objects.getD id defaultObject).name ++
            ". You\x27re inventory is full!")
          colors.RED,
         objects) := by
      simp only [pick_up_item, if_pos hfull]
    exact ⟨h1, by rw [h1]; rfl⟩
  · intro gs id objects hroom
    have hno : ¬ 26 ≤ gs.inventory.length := by omega
    constructor
    · simp only [pick_up_item, if_neg hno, swapRemove]
      rfl
    · simp only [pick_up_item, if_neg hno, swapRemove]
  · intro gs objects
    simp only [handle_pick_up_intent]
    split <;> rfl

/-- Scenario F instance of C7: with the inventory at 26 entries the pickup
is rejected — only a capacity message is logged, and nothing moves. -/
theorem c7_pick_up_item_witness :
    pick_up_item gsFullInv 0 [potionObj] =
      (message gsFullInv
        ("You can\x27t pick up the Healing Potion. You\x27re inventory is full!")
        colors.RED,
       [potionObj])
  ∧ (handle_pick_up_intent gsFullInv [potionObj]).1 =
      PlayerAction.DidntTakeTurn := by
  constructor
  · exact (c7_pick_up_item.1 gsFullInv 0 [potionObj] (by decide)).1
  · exact c7_pick_up_item.2.2 gsFullInv [potionObj]

/-! ## C9: the message log -/

/-- Claim C9, counterexample to the claim as stated: the log is bounded —
once it holds MSG_HEIGHT = 6 entries, pushing a new message removes the
oldest entry, so the log is not append-only. -/
theorem c9_counterexample :
    ("m1", colors.WHITE) ∈ gsFullLog.messages
  ∧ ("m1", colors.WHITE) ∉ (message gsFullLog "m7" colors.RED).messages := by
  decide

/-- Claim C9 (amended): the log is a bounded FIFO of capacity
MSG_HEIGHT = 6 — `message` appends the new entry at the end, first
discarding the oldest entry exactly when the log already holds 6; entries
are never modified (the log minus its new tail entry is a suffix of the old
log).  Every meaningful resolution appends its entry through `message`:
capacity rejection, successful pickup, death, a no-effect attack, healing,
and item-use cancellation each leave their message as the newest entry. -/
theorem c9_message_log :
    (∀ (gs : GameState) (m : String) (c : Color),
       (message gs m c).messages =
         (if gs.messages.length = MSG_HEIGHT then gs.messages.drop 1
          else gs.messages) ++ [(m, c)]
       ∧ (message gs m c).messages.getLast? = some (m, c)
       ∧ (message gs m c).messages.dropLast <:+ gs.messages)
  ∧ (∀ (gs : GameState) (id : Nat) (objects : List Object),
       26 ≤ gs.inventory.length →
       (pick_up_item gs id objects).1.messages.getLast? =
         some ("You can\x27t pick up the " ++
           (objects.getD id defaultObject).name ++
           ". You\x27re inventory is full!", colors.RED))
  ∧ (∀ (gs : GameState) (id : Nat) (objects : List Object),
       gs.inventory.length < 26 →
       (pick_up_item gs id objects).1.messages.getLast? =
         some ("You picked up a " ++ (objects.getD id defaultObject).name ++
           "!", colors.GREEN))
  ∧ (∀ (o : Object) (gs : GameState),
       (on_object_death o gs).2.messages.getLast? =
         some (o.name ++ " died!", colors.RED))
  ∧ (∀ (a t : Object) (pa ta : CharacterAttributes) (gs : GameState),
       a.char_attributes = some pa → t.char_attributes = some ta →
       pa.power - ta.defense ≤ 0 →
       (a.attack t gs).2.messages.getLast? =
         some (a.name ++ " attacks " ++ t.name ++ ", but it has no effect!",
           colors.WHITE))
  ∧ (∀ (gs : GameState) (objects : List Object) (ca : CharacterAttributes),
       (objects.getD PLAYER_IDX defaultObject).char_attributes = some ca →
       ca.hp ≠ ca.max_hp →
       (cast_heal gs objects).2.1.messages.getLast? =
         some ("Your wounds begin to magically heal. Thanks potion!",
           colors.LIGHT_VIOLET))
  ∧ (∀ (i : Nat) (gs : GameState) (objects : List Object)
        (ca : CharacterAttributes),
       (gs.inventory.getD i defaultObject).item = some Item.Heal →
       (objects.getD PLAYER_IDX defaultObject).char_attributes = some ca →
       ca.hp = ca.max_hp →
       (use_item i gs objects).1.messages.getLast? =
         some ("Cancelled", colors.WHITE)) := by
  refine ⟨?_, ?_, ?_, ?_, ?_, ?_, ?_⟩
  · intro gs m c
    refine ⟨message_messages gs m c, message_getLast gs m c, ?_⟩
    rw [message_messages, List.dropLast_concat]
    by_cases h : gs.messages.length = MSG_HEIGHT
    · rw [if_pos h]
      exact List.drop_suffix 1 _
    · rw [if_neg h]
  · intro gs id objects hfull
    simp only [pick_up_item, if_pos hfull]
    exact message_getLast _ _ _
  · intro gs id objects hroom
    simp only [pick_up_item, if_neg (by omega : ¬ 26 ≤ gs.inventory.length)]
    exact message_getLast _ _ _
  · intro o gs
    unfold on_object_death
    cases o.brain <;> exact message_getLast _ _ _
  · intro a t pa ta gs ha hta hle
    simp only [Object.attack, ha, hta, if_neg (by omega : ¬ pa.power - ta.defense > 0)]
    exact message_getLast _ _ _
  · intro gs objects ca hca hne
    rw [cast_heal_eq gs objects ca hca, if_neg hne]
    exact message_getLast _ _ _
  · intro i gs objects ca hitem hca hfull
    simp only [use_item, hitem, cast_heal_eq gs objects ca hca, if_pos hfull]
    exact message_getLast _ _ _

/-- Witness for C9 (amended): pushing onto the full six-entry log keeps the
newest entry last and only discards the oldest. -/
theorem c9_message_log_witness :
    (message gsFullLog "m7" colors.RED).messages =
      (if gsFullLog.messages.length = MSG_HEIGHT then gsFullLog.messages.drop 1
       else gsFullLog.messages) ++ [("m7", colors.RED)]
  ∧ (pick_up_item gsFullInv 0 [potionObj]).1.messages.getLast? =
      some ("You can\x27t pick up the Healing Potion. You\x27re inventory is full!",
        colors.RED) := by
  constructor
  · exact ((c9_message_log.1 gsFullLog "m7" colors.RED)).1
  · exact c9_message_log.2.1 gsFullInv 0 [potionObj] (by decide)

/-! ## C3: the hp/alive invariants -/

/-- take_damage is a no-op for non-positive damage. -/
theorem take_damage_not_pos (t : Object) (d : Int) (gs : GameState)
    (hd : d ≤ 0) : t.take_damage d gs = (t, gs) := by
  simp only [Object.take_damage]
  rw [if_neg (by rintro ⟨_, h⟩; omega)]

/-- take_damage is a no-op on a dead entity. -/
theorem take_damage_dead (t : Object) (d : Int) (gs : GameState)
    (ht : t.alive = false) : t.take_damage d gs = (t, gs) := by
  simp [Object.take_damage, ht]

/-- take_damage is a no-op on an entity without attributes. -/
theorem take_damage_no_attrs (t : Object) (d : Int) (gs : GameState)
    (h : t.char_attributes = none) : t.take_damage d gs = (t, gs) := by
  by_cases hc : t.alive = true ∧ d > 0
  · simp [Object.take_damage, hc.1, hc.2, h]
  · simp only [Object.take_damage]
    rw [if_neg hc]

/-- Each monster-placement attempt preserves the hp invariant on every
object in the collection (the seeded stat blocks all satisfy it). -/
theorem place_one_monster_attrs (room : Rect) (map : Map)
    (s : RNG × List Object)
    (h : ∀ o ∈ s.2, attrsOk o.char_attributes = true) :
    ∀ o ∈ (place_one_monster room map s).2,
      attrsOk o.char_attributes = true := by
  intro o ho
  unfold place_one_monster at ho
  dsimp only at ho
  split at ho
  · rcases List.mem_append.mp ho with hmem | hmem
    · exact h o hmem
    · rw [List.mem_singleton] at hmem
      subst hmem
      split
      · simp [attrsOk, mk_witch, Object.new]
      · split
        · simp [attrsOk, mk_lizard, Object.new]
        · simp [attrsOk, mk_wizard, Object.new]
  · exact h o ho

/-- Each item-placement attempt preserves the hp invariant (potions carry
no attributes). -/
theorem place_one_item_attrs (room : Rect) (map : Map)
    (s : RNG × List Object)
    (h : ∀ o ∈ s.2, attrsOk o.char_attributes = true) :
    ∀ o ∈ (place_one_item room map s).2,
      attrsOk o.char_attributes = true := by
  intro o ho
  unfold place_one_item at ho
  dsimp only at ho
  split at ho
  · rcases List.mem_append.mp ho with hmem | hmem
    · exact h o hmem
    · rw [List.mem_singleton] at hmem
      subst hmem
      simp [attrsOk, Object.new]
  · exact h o ho

/-- place_objects preserves the hp invariant on every object. -/
theorem place_objects_attrs (rng : RNG) (room : Rect) (map : Map)
    (objects : List Object)
    (h : ∀ o ∈ objects, attrsOk o.char_attributes = true) :
    ∀ o ∈ (place_objects rng room map objects).2,
      attrsOk o.char_attributes = true := by
  have h1 := foldl_preserves
    (fun s : RNG × List Object => ∀ o ∈ s.2, attrsOk o.char_attributes = true)
    (fun s _ => place_one_monster room map s)
    (List.range ((rng.gen_range 0 (MAX_ROOM_MONSTERS + 1)).1.toNat))
    ((rng.gen_range 0 (MAX_ROOM_MONSTERS + 1)).2, objects) h
    (fun a b _ ha => place_one_monster_attrs room map a ha)
  exact foldl_preserves
    (fun s : RNG × List Object => ∀ o ∈ s.2, attrsOk o.char_attributes = true)
    (fun s _ => place_one_item room map s)
    _ _ h1
    (fun a b _ ha => place_one_item_attrs room map a ha)

/-- Claim C3: the hp invariant 0 ≤ hp ≤ max_hp holds for the player as
created in main and for every entity seeded by place_objects, and is
preserved by every take_damage and heal call; alive never returns from
false to true under take_damage or heal, and when an alive entity dies
from take_damage its hp is exactly 0 (and conversely hp hitting 0 clears
alive). -/
theorem c3_hp_alive_invariant :
    (attrsOk initial_player.char_attributes = true)
  ∧ (∀ (rng : RNG) (room : Rect) (map : Map) (objects : List Object),
       (∀ o ∈ objects, attrsOk o.char_attributes = true) →
       (∀ o ∈ (place_objects rng room map objects).2,
          attrsOk o.char_attributes = true))
  ∧ (∀ (t : Object) (d : Int) (gs : GameState),
       attrsOk t.char_attributes = true →
       attrsOk (t.take_damage d gs).1.char_attributes = true)
  ∧ (∀ (t : Object) (amt : Int),
       attrsOk t.char_attributes = true →
       attrsOk (t.heal amt).char_attributes = true)
  ∧ (∀ (t : Object) (d : Int) (gs : GameState),
       (t.take_damage d gs).1.alive = true → t.alive = true)
  ∧ (∀ (t : Object) (amt : Int), (t.heal amt).alive = t.alive)
  ∧ (∀ (t : Object) (ta : CharacterAttributes) (d : Int) (gs : GameState),
       t.alive = true → t.char_attributes = some ta →
       (t.take_damage d gs).1.alive = false →
       (t.take_damage d gs).1.char_attributes = some ({ ta with hp := 0 }))
  ∧ (∀ (t : Object) (ta : CharacterAttributes) (d : Int) (gs : GameState),
       t.alive = true → t.char_attributes = some ta → 0 < d →
       ta.hp - min d ta.hp = 0 →
       (t.take_damage d gs).1.alive = false) := by
  refine ⟨by decide, place_objects_attrs, ?_, ?_, ?_, ?_, ?_, ?_⟩
  · intro t d gs hOk
    by_cases hd : 0 < d
    · by_cases ht : t.alive = true
      · cases hta : t.char_attributes with
        | none => rw [take_damage_no_attrs t d gs hta]; exact hOk
        | some ta =>
          have hmin : min d ta.hp ≤ ta.hp := min_le_right _ _
          have hOk' : 0 ≤ ta.hp ∧ ta.hp ≤ ta.max_hp := by
            rw [hta] at hOk
            simpa [attrsOk] using hOk
          rw [take_damage_eq t ta d gs ht hta hd]
          by_cases hle : ta.hp - min d ta.hp ≤ 0
          · rw [if_pos hle, on_object_death_char_attributes]
            simp only [attrsOk]
            simp only [Bool.and_eq_true, decide_eq_true_eq]
            omega
          · rw [if_neg hle]
            simp only [attrsOk]
            simp only [Bool.and_eq_true, decide_eq_true_eq]
            omega
      · rw [take_damage_dead t d gs (by revert ht; cases t.alive <;> simp)]
        exact hOk
    · rw [take_damage_not_pos t d gs (by omega)]
      exact hOk
  · intro t amt hOk
    by_cases hc : t.alive = true ∧ 0 < amt
    · cases hta : t.char_attributes with
      | none =>
        have : t.heal amt = t := by simp [Object.heal, hc.1, hc.2, hta]
        rw [this]; exact hOk
      | some ta =>
        have hOk' : 0 ≤ ta.hp ∧ ta.hp ≤ ta.max_hp := by
          rw [hta] at hOk
          simpa [attrsOk] using hOk
        rw [heal_some t ta amt hta hc.1 hc.2]
        simp only [attrsOk]
        simp only [Bool.and_eq_true, decide_eq_true_eq]
        constructor
        · rw [le_min_iff]; omega
        · exact min_le_left _ _
    · have : t.heal amt = t := by
        simp only [Object.heal]
        rw [if_neg hc]
      rw [this]; exact hOk
  · intro t d gs h
    by_cases hc : t.alive = true
    · exact hc
    · rw [take_damage_dead t d gs (by revert hc; cases t.alive <;> simp)] at h
      exact h
  · intro t amt
    simp only [Object.heal]
    split
    · rcases htc : t.char_attributes with _ | ca <;> simp [htc]
    · rfl
  · intro t ta d gs ht hta hdead
    by_cases hd : 0 < d
    · have hmin : min d ta.hp ≤ ta.hp := min_le_right _ _
      rw [take_damage_eq t ta d gs ht hta hd] at hdead ⊢
      by_cases hle : ta.hp - min d ta.hp ≤ 0
      · rw [if_pos hle] at hdead ⊢
        rw [on_object_death_char_attributes]
        have : ta.hp - min d ta.hp = 0 := by omega
        rw [this]
      · rw [if_neg hle] at hdead
        rw [ht] at hdead
        exact absurd hdead (by simp)
    · rw [take_damage_not_pos t d gs (by omega)] at hdead
      rw [ht] at hdead
      exact absurd hdead (by simp)
  · intro t ta d gs ht hta hd hzero
    rw [take_damage_eq t ta d gs ht hta hd, if_pos (by omega)]
    rw [on_object_death_alive]

/-- Witness for C3: the lizard stat block (hp 5/7) keeps its invariant
through a 3-damage hit, and dying at exactly 0 hp clears alive. -/
theorem c3_hp_alive_invariant_witness :
    attrsOk ((mk_lizard 1 1 "Lizard_2").take_damage 3 gsEmpty).1.char_attributes = true
  ∧ (({ mk_lizard 1 1 "Lizard_2" with alive := true } :
       Object).take_damage 5 gsEmpty).1.alive = false := by
  constructor
  · exact c3_hp_alive_invariant.2.2.1 (mk_lizard 1 1 "Lizard_2") 3 gsEmpty
      (by decide)
  · exact c3_hp_alive_invariant.2.2.2.2.2.2.2
      ({ mk_lizard 1 1 "Lizard_2" with alive := true })
      ({ max_hp := 7, hp := 5, defense := 2, power := 1 }) 5 gsEmpty rfl rfl
      (by decide) (by decide)

/-! ## C8: monotonic exploration -/

/-- One per-tile write of update_map, as a set of `tileAfterFov`. -/
theorem fold_fov_tile_eq (fov : Int → Int → Bool) (m : Map) (x y : Int) :
    fold_fov_tile fov m x y =
      m.set ((y * MAP_WIDTH + x).toNat)
        (tileAfterFov fov (m.getD ((y * MAP_WIDTH + x).toNat) Tile.wall) x y) := by
  unfold fold_fov_tile tileAfterFov
  dsimp only
  congr 1
  generalize m.getD ((y * MAP_WIDTH + x).toNat) Tile.wall = t0
  obtain ⟨p, b, e, v⟩ := t0
  cases e <;> cases hfov : fov x y <;> simp

/-- tileAfterFov is idempotent at fixed coordinates. -/
theorem tileAfterFov_idem (fov : Int → Int → Bool) (t0 : Tile) (x y : Int) :
    tileAfterFov fov (tileAfterFov fov t0 x y) x y = tileAfterFov fov t0 x y := by
  unfold tileAfterFov
  simp [Bool.or_assoc]

/-- Row-major index decoding is injective on in-range coordinates. -/
theorem idx_inj {x y x' y' : Int}
    (hx : 0 ≤ x) (hxW : x < MAP_WIDTH) (hy : 0 ≤ y) (hyH : y < MAP_HEIGHT)
    (hx' : 0 ≤ x') (hxW' : x' < MAP_WIDTH) (hy' : 0 ≤ y') (hyH' : y' < MAP_HEIGHT)
    (h : (y * MAP_WIDTH + x).toNat = (y' * MAP_WIDTH + x').toNat) :
    x = x' ∧ y = y' := by
  have hW : MAP_WIDTH = 80 := by decide
  have hH : MAP_HEIGHT = 38 := by decide
  rw [hW] at hxW hxW' h
  rw [hH] at hyH hyH'
  omega

/-- Each per-tile write preserves the recompute relation. -/
theorem fold_fov_tile_rel (fov : Int → Int → Bool) (m0 m : Map) (x y : Int)
    (hx : 0 ≤ x) (hxW : x < MAP_WIDTH) (hy : 0 ≤ y) (hyH : y < MAP_HEIGHT)
    (h : fovTileRel fov m0 m) : fovTileRel fov m0 (fold_fov_tile fov m x y) := by
  rw [fold_fov_tile_eq]
  intro j
  by_cases hj : j = (y * MAP_WIDTH + x).toNat
  · subst hj
    by_cases hlen : (y * MAP_WIDTH + x).toNat < m.length
    · rw [getD_set_self _ _ _ _ hlen]
      rcases h ((y * MAP_WIDTH + x).toNat) with h1 |
        ⟨x', y', hx', hxW', hy', hyH', hj', h2⟩
      · right
        exact ⟨x, y, hx, hxW, hy, hyH, rfl, by rw [h1]⟩
      · obtain ⟨hxe, hye⟩ := idx_inj hx hxW hy hyH hx' hxW' hy' hyH' hj'
        subst hxe
        subst hye
        right
        exact ⟨x, y, hx, hxW, hy, hyH, rfl, by rw [h2, tileAfterFov_idem]⟩
    · rw [List.set_eq_of_length_le (by omega)]
      exact h _
  · rw [getD_set_ne _ _ _ _ _ (fun hh => hj hh.symm)]
    exact h j

/-- A full recompute relates to the starting map cellwise. -/
theorem recompute_fov_rel (fov : Int → Int → Bool) (m0 : Map) :
    fovTileRel fov m0 (recompute_fov fov m0) := by
  unfold recompute_fov
  refine foldl_preserves (fovTileRel fov m0) _ _ _ (fun j => Or.inl rfl) ?_
  intro m y hy hm
  have hyb := mem_intRange hy
  refine foldl_preserves (fovTileRel fov m0) _ _ _ hm ?_
  intro m' x hx hm'
  have hxb := mem_intRange hx
  exact fold_fov_tile_rel fov m0 m' x y hxb.1 hxb.2 hyb.1 hyb.2 hm'

/-- Claim C8: when the recompute trigger does not fire, update_map leaves
the whole session (in particular every visible/explored flag) exactly as
it was; and across a recompute every tile's explored flag is monotonic —
it can only go from false to true, and only when the tile has become
visible. -/
theorem c8_update_map_monotone :
    (∀ (gs : GameState) (fov : Int → Int → Bool),
       update_map gs fov false = gs)
  ∧ (∀ (gs : GameState) (fov : Int → Int → Bool) (j : Nat),
       ((gs.map.getD j Tile.wall).explored = true →
          ((update_map gs fov true).map.getD j Tile.wall).explored = true)
     ∧ ((gs.map.getD j Tile.wall).explored = false →
          ((update_map gs fov true).map.getD j Tile.wall).explored = true →
          ((update_map gs fov true).map.getD j Tile.wall).visible = true)) := by
  constructor
  · intro gs fov
    simp [update_map]
  · intro gs fov j
    have hmap : (update_map gs fov true).map = recompute_fov fov gs.map := by
      simp [update_map]
    rw [hmap]
    rcases recompute_fov_rel fov gs.map j with h1 | ⟨x, y, _, _, _, _, _, h2⟩
    · rw [h1]
      constructor
      · exact fun h => h
      · intro hfalse htrue
        rw [hfalse] at htrue
        exact absurd htrue (by simp)
    · rw [h2]
      unfold tileAfterFov
      constructor
      · intro he
        dsimp only
        rw [he]
        simp
      · intro he hex
        dsimp only at hex ⊢
        rw [he] at hex
        rw [Bool.false_or] at hex
        exact hex

/-- Witness for C8: a one-tile map with an explored tile keeps it explored
through a recompute with an all-false oracle, and no recompute leaves the
session untouched. -/
theorem c8_update_map_monotone_witness :
    update_map c8GS (fun _ _ => false) false = c8GS
  ∧ ((update_map c8GS (fun _ _ => false) true).map.getD 0
       Tile.wall).explored = true := by
  constructor
  · exact c8_update_map_monotone.1 c8GS (fun _ _ => false)
  · exact (c8_update_map_monotone.2 c8GS (fun _ _ => false) 0).1 (by decide)

/-! ## C6: accepted rooms never intersect -/

/-- The inclusive-bound intersection test is symmetric. -/
theorem intersects_with_comm (r s : Rect) :
    r.intersects_with s = s.intersects_with r := by
  unfold Rect.intersects_with
  rw [Bool.eq_iff_iff]
  simp only [Bool.and_eq_true, decide_eq_true_eq]
  constructor
  · rintro ⟨⟨⟨h1, h2⟩, h3⟩, h4⟩
    refine ⟨⟨⟨by omega, by omega⟩, by omega⟩, by omega⟩
  · rintro ⟨⟨⟨h1, h2⟩, h3⟩, h4⟩
    refine ⟨⟨⟨by omega, by omega⟩, by omega⟩, by omega⟩

/-- One generator iteration keeps the accepted rooms pairwise
non-intersecting: a candidate is pushed only when the inclusive-bound test
against every previously accepted room is false. -/
theorem make_map_step_rooms (s : LevelGen)
    (h : s.rooms.Pairwise (fun r t =>
      r.intersects_with t = false ∧ t.intersects_with r = false)) :
    (make_map_step s).rooms.Pairwise (fun r t =>
      r.intersects_with t = false ∧ t.intersects_with r = false) := by
  unfold make_map_step
  dsimp only
  split
  · next hcan =>
    rw [List.pairwise_append]
    refine ⟨h, List.pairwise_singleton _ _, ?_⟩
    intro a ha b hb
    rw [List.mem_singleton] at hb
    subst hb
    have hany := Bool.eq_false_iff.mpr hcan
    have h1 := List.any_eq_false.mp hany a ha
    refine ⟨?_, Bool.eq_false_iff.mpr h1⟩
    rw [intersects_with_comm]
    exact Bool.eq_false_iff.mpr h1
  · exact h

/-- Claim C6: every pair of distinct rooms accepted by make_map fails the
inclusive-bound intersection test (in both orders): a candidate is only
accepted when it intersects no previously accepted room. -/
theorem c6_rooms_disjoint :
    ∀ (rng : RNG) (objects : List Object),
      (make_map_full rng objects).rooms.Pairwise (fun r t =>
        r.intersects_with t = false ∧ t.intersects_with r = false) := by
  intro rng objects
  unfold make_map_full
  refine foldl_preserves
    (fun s : LevelGen => s.rooms.Pairwise (fun r t =>
      r.intersects_with t = false ∧ t.intersects_with r = false))
    _ _ _ ?_ ?_
  · exact List.Pairwise.nil
  · intro a b _ ha
    exact make_map_step_rooms a ha

/-! ## C10: border walls and index safety -/

/-- The contract of gen_range: the sample lies in [lo, hi). -/
theorem gen_range_mem (r : RNG) (lo hi : Int) (h : lo < hi) :
    lo ≤ (r.gen_range lo hi).1 ∧ (r.gen_range lo hi).1 < hi := by
  unfold RNG.gen_range RNG.next
  dsimp only
  have h1 : 0 ≤ ((r.seq r.idx : Nat) : Int) % (hi - lo) :=
    Int.emod_nonneg _ (by omega)
  have h2 : ((r.seq r.idx : Nat) : Int) % (hi - lo) < hi - lo :=
    Int.emod_lt_of_pos _ (by omega)
  omega

/-- Writing any tile at interior coordinates keeps the map invariant. -/
theorem MapInv_set (m : Map) (wx wy : Int) (t : Tile)
    (hwx1 : 1 ≤ wx) (hwx2 : wx ≤ MAP_WIDTH - 2)
    (hwy1 : 1 ≤ wy) (hwy2 : wy ≤ MAP_HEIGHT - 2)
    (hb : MapInv m) : MapInv (m.set ((wy * MAP_WIDTH + wx).toNat) t) := by
  obtain ⟨hlen, hb⟩ := hb
  refine ⟨by rw [List.length_set]; exact hlen, ?_⟩
  intro x y hx hxW hy hyH hedge
  rw [getD_set_ne]
  · exact hb x y hx hxW hy hyH hedge
  · have hW : MAP_WIDTH = 80 := by decide
    have hH : MAP_HEIGHT = 38 := by decide
    rw [hW] at hwx2 hxW ⊢
    rw [hH] at hwy2 hyH
    rw [hW, hH] at hedge
    omega

/-- create_room only writes strictly inside an in-bounds rect. -/
theorem create_room_MapInv (room : Rect) (m : Map)
    (h1 : 0 ≤ room.x1) (h2 : room.x2 ≤ MAP_WIDTH - 1)
    (h3 : 0 ≤ room.y1) (h4 : room.y2 ≤ MAP_HEIGHT - 1)
    (hb : MapInv m) : MapInv (create_room room m) := by
  unfold create_room
  refine foldl_preserves MapInv _ _ _ hb ?_
  intro acc y hy hacc
  have hyb := mem_intRange hy
  refine foldl_preserves MapInv _ _ _ hacc ?_
  intro acc2 x hx hacc2
  have hxb := mem_intRange hx
  exact MapInv_set acc2 x y Tile.empty (by omega) (by omega) (by omega)
    (by omega) hacc2

/-- create_h_tunnel between interior endpoints only writes interior
tiles. -/
theorem create_h_tunnel_MapInv (x1 x2 y : Int) (m : Map)
    (h1 : 1 ≤ x1) (h2 : x1 ≤ MAP_WIDTH - 2) (h3 : 1 ≤ x2)
    (h4 : x2 ≤ MAP_WIDTH - 2) (h5 : 1 ≤ y) (h6 : y ≤ MAP_HEIGHT - 2)
    (hb : MapInv m) : MapInv (create_h_tunnel x1 x2 y m) := by
  unfold create_h_tunnel
  refine foldl_preserves MapInv _ _ _ hb ?_
  intro acc x hx hacc
  have hxb := mem_intRange hx
  have hminb : 1 ≤ min x1 x2 := le_min h1 h3
  have hmaxb : max x1 x2 ≤ MAP_WIDTH - 2 := max_le h2 h4
  exact MapInv_set acc x y _ (by omega) (by omega) h5 h6 hacc

/-- create_v_tunnel between interior endpoints only writes interior
tiles. -/
theorem create_v_tunnel_MapInv (y1 y2 x : Int) (m : Map)
    (h1 : 1 ≤ y1) (h2 : y1 ≤ MAP_HEIGHT - 2) (h3 : 1 ≤ y2)
    (h4 : y2 ≤ MAP_HEIGHT - 2) (h5 : 1 ≤ x) (h6 : x ≤ MAP_WIDTH - 2)
    (hb : MapInv m) : MapInv (create_v_tunnel y1 y2 x m) := by
  unfold create_v_tunnel
  refine foldl_preserves MapInv _ _ _ hb ?_
  intro acc y hy hacc
  have hyb := mem_intRange hy
  have hminb : 1 ≤ min y1 y2 := le_min h1 h3
  have hmaxb : max y1 y2 ≤ MAP_HEIGHT - 2 := max_le h2 h4
  exact MapInv_set acc x y _ h5 h6 (by omega) (by omega) hacc

/-- The center of an in-bounds room lies at least two tiles from every
edge. -/
theorem center_bounds (r : Rect) (h : RoomInBounds r) :
    2 ≤ r.center.1 ∧ r.center.1 ≤ MAP_WIDTH - 2 ∧
    2 ≤ r.center.2 ∧ r.center.2 ≤ MAP_HEIGHT - 2 := by
  obtain ⟨h1, h2, h3, h4, h5, h6⟩ := h
  unfold Rect.center
  dsimp only
  rw [Int.tdiv_eq_ediv (by omega) (by omega),
    Int.tdiv_eq_ediv (by omega) (by omega)]
  have hW : (2 : Int) ≤ MAP_WIDTH - 2 := by decide
  have hH : (2 : Int) ≤ MAP_HEIGHT - 2 := by decide
  omega

/-- getLastD of a nonempty list is a member. -/
theorem getLastD_mem_of_ne_nil {l : List Rect} (h : l ≠ []) (d : Rect) :
    l.getLastD d ∈ l := by
  rw [List.getLastD_eq_getLast?, List.getLast?_eq_getLast l h,
    Option.getD_some]
  exact List.getLast_mem h

/-- One generator iteration preserves the map and room invariants. -/
theorem make_map_step_inv (s : LevelGen) (h : GenInv s) :
    GenInv (make_map_step s) := by
  obtain ⟨hmap, hrooms⟩ := h
  have hW : MAP_WIDTH = 80 := by decide
  have hH : MAP_HEIGHT = 38 := by decide
  have hRmin : ROOM_MIN_SIZE = 5 := by decide
  have hRmax : ROOM_MAX_SIZE = 12 := by decide
  unfold make_map_step
  dsimp only
  have hw := gen_range_mem s.rng ROOM_MIN_SIZE (ROOM_MAX_SIZE + 1) (by omega)
  have hh := gen_range_mem (s.rng.gen_range ROOM_MIN_SIZE (ROOM_MAX_SIZE + 1)).2
    ROOM_MIN_SIZE (ROOM_MAX_SIZE + 1) (by omega)
  have hx := gen_range_mem
    ((s.rng.gen_range ROOM_MIN_SIZE (ROOM_MAX_SIZE + 1)).2.gen_range
      ROOM_MIN_SIZE (ROOM_MAX_SIZE + 1)).2
    0 (MAP_WIDTH - (s.rng.gen_range ROOM_MIN_SIZE (ROOM_MAX_SIZE + 1)).1)
    (by omega)
  have hy := gen_range_mem
    (((s.rng.gen_range ROOM_MIN_SIZE (ROOM_MAX_SIZE + 1)).2.gen_range
        ROOM_MIN_SIZE (ROOM_MAX_SIZE + 1)).2.gen_range 0
      (MAP_WIDTH - (s.rng.gen_range ROOM_MIN_SIZE (ROOM_MAX_SIZE + 1)).1)).2
    0 (MAP_HEIGHT -
        ((s.rng.gen_range ROOM_MIN_SIZE (ROOM_MAX_SIZE + 1)).2.gen_range
          ROOM_MIN_SIZE (ROOM_MAX_SIZE + 1)).1)
    (by omega)
  have hroom : RoomInBounds (Rect.new
      (((s.rng.gen_range ROOM_MIN_SIZE (ROOM_MAX_SIZE + 1)).2.gen_range
          ROOM_MIN_SIZE (ROOM_MAX_SIZE + 1)).2.gen_range 0
        (MAP_WIDTH - (s.rng.gen_range ROOM_MIN_SIZE (ROOM_MAX_SIZE + 1)).1)).1
      ((((s.rng.gen_range ROOM_MIN_SIZE (ROOM_MAX_SIZE + 1)).2.gen_range
            ROOM_MIN_SIZE (ROOM_MAX_SIZE + 1)).2.gen_range 0
          (MAP_WIDTH -
            (s.rng.gen_range ROOM_MIN_SIZE (ROOM_MAX_SIZE + 1)).1)).2.gen_range
        0 (MAP_HEIGHT -
            ((s.rng.gen_range ROOM_MIN_SIZE (ROOM_MAX_SIZE + 1)).2.gen_range
              ROOM_MIN_SIZE (ROOM_MAX_SIZE + 1)).1)).1
      (s.rng.gen_range ROOM_MIN_SIZE (ROOM_MAX_SIZE + 1)).1
      ((s.rng.gen_range ROOM_MIN_SIZE (ROOM_MAX_SIZE + 1)).2.gen_range
        ROOM_MIN_SIZE (ROOM_MAX_SIZE + 1)).1) := by
    unfold RoomInBounds Rect.new
    dsimp only
    refine ⟨by omega, by omega, by omega, by omega, by omega, by omega⟩
  split
  · constructor
    · split
      · exact create_room_MapInv _ _ hroom.1 hroom.2.2.1 hroom.2.2.2.1
          hroom.2.2.2.2.2 hmap
      · next hne =>
        have hnn : s.rooms ≠ [] := by
          intro hnil
          apply hne
          rw [hnil]
          rfl
        have hprev : RoomInBounds (s.rooms.getLastD (Rect.new 0 0 0 0)) :=
          hrooms _ (getLastD_mem_of_ne_nil hnn _)
        have hpc := center_bounds _ hprev
        have hcc := center_bounds _ hroom
        split
        · exact create_v_tunnel_MapInv _ _ _ _
            (by omega) (by omega) (by omega) (by omega) (by omega) (by omega)
            (create_h_tunnel_MapInv _ _ _ _
              (by omega) (by omega) (by omega) (by omega) (by omega) (by omega)
              (create_room_MapInv _ _ hroom.1 hroom.2.2.1 hroom.2.2.2.1
                hroom.2.2.2.2.2 hmap))
        · exact create_h_tunnel_MapInv _ _ _ _
            (by omega) (by omega) (by omega) (by omega) (by omega) (by omega)
            (create_v_tunnel_MapInv _ _ _ _
              (by omega) (by omega) (by omega) (by omega) (by omega) (by omega)
              (create_room_MapInv _ _ hroom.1 hroom.2.2.1 hroom.2.2.2.1
                hroom.2.2.2.2.2 hmap))
    · intro r hr
      rcases List.mem_append.mp hr with hr | hr
      · exact hrooms r hr
      · rw [List.mem_singleton] at hr
        subst hr
        exact hroom
  · exact ⟨hmap, hrooms⟩

/-- The initial all-wall grid satisfies the map invariant. -/
theorem replicate_MapInv :
    MapInv (List.replicate (MAP_WIDTH * MAP_HEIGHT).toNat Tile.wall) := by
  refine ⟨List.length_replicate _ _, ?_⟩
  intro x y _ _ _ _ _
  simp only [List.getD_eq_getElem?_getD, List.getElem?_replicate]
  split <;> rfl

/-- The generator establishes the map and room invariants. -/
theorem make_map_full_inv (rng : RNG) (objects : List Object) :
    GenInv (make_map_full rng objects) := by
  unfold make_map_full
  refine foldl_preserves GenInv _ _ _ ?_ ?_
  · exact ⟨replicate_MapInv, fun r hr => absurd hr (List.not_mem_nil r)⟩
  · intro a b _ ha
    exact make_map_step_inv a ha

/-- Claim C10: in every map returned by make_map the whole border consists
of impassable, sight-blocking wall tiles; consequently, from any passable
(hence interior) tile, every single-step destination's unguarded row-major
index stays inside the grid (and inside the backing vector). -/
theorem c10_border_walls :
    ∀ (rng : RNG) (objects : List Object),
      (∀ x y : Int, 0 ≤ x → x < MAP_WIDTH → 0 ≤ y → y < MAP_HEIGHT →
         (x = 0 ∨ x = MAP_WIDTH - 1 ∨ y = 0 ∨ y = MAP_HEIGHT - 1) →
         ((make_map rng objects).1.getD (y * MAP_WIDTH + x).toNat
             Tile.wall).passable = false
         ∧ ((make_map rng objects).1.getD (y * MAP_WIDTH + x).toNat
             Tile.wall).blocks_sight = true)
    ∧ (∀ x y dx dy : Int, 0 ≤ x → x < MAP_WIDTH → 0 ≤ y → y < MAP_HEIGHT →
         ((make_map rng objects).1.getD (y * MAP_WIDTH + x).toNat
             Tile.wall).passable = true →
         -1 ≤ dx → dx ≤ 1 → -1 ≤ dy → dy ≤ 1 →
         0 ≤ (y + dy) * MAP_WIDTH + (x + dx) ∧
         (y + dy) * MAP_WIDTH + (x + dx) < MAP_WIDTH * MAP_HEIGHT ∧
         ((y + dy) * MAP_WIDTH + (x + dx)).toNat <
           (make_map rng objects).1.length) := by
  intro rng objects
  have hfst : (make_map rng objects).1 = (make_map_full rng objects).map := by
    simp only [make_map]
  have hinv := make_map_full_inv rng objects
  constructor
  · intro x y hx hxW hy hyH hedge
    rw [hfst, hinv.1.2 x y hx hxW hy hyH hedge]
    exact ⟨rfl, rfl⟩
  · intro x y dx dy hx hxW hy hyH hpass hdx1 hdx2 hdy1 hdy2
    have hW : MAP_WIDTH = 80 := by decide
    have hH : MAP_HEIGHT = 38 := by decide
    have hedge : ¬ (x = 0 ∨ x = MAP_WIDTH - 1 ∨ y = 0 ∨ y = MAP_HEIGHT - 1) := by
      intro hedge
      rw [hfst, hinv.1.2 x y hx hxW hy hyH hedge] at hpass
      exact absurd hpass (by decide)
    rw [hfst, hinv.1.1]
    rw [hW] at hxW hedge ⊢
    rw [hH] at hyH hedge ⊢
    refine ⟨by omega, by omega, by omega⟩

/-- Witness for C10: with a concrete random stream, the four corners of
the generated map are walls. -/
theorem c10_border_walls_witness :
    ((make_map ⟨fun _ => 0, 0⟩ []).1.getD ((0 : Int) * MAP_WIDTH + 0).toNat
        Tile.wall).passable = false
  ∧ ((make_map ⟨fun _ => 0, 0⟩ []).1.getD
        ((37 : Int) * MAP_WIDTH + 79).toNat Tile.wall).passable = false := by
  constructor
  · exact ((c10_border_walls ⟨fun _ => 0, 0⟩ []).1 0 0 (by decide) (by decide)
      (by decide) (by decide) (by decide)).1
  · exact ((c10_border_walls ⟨fun _ => 0, 0⟩ []).1 79 37 (by decide)
      (by decide) (by decide) (by decide) (by decide)).1

end RR
